import Mathlib

/-!
Verification of the opendut control-plane Resource Manager core: a shallow
embedding of the resource identity model, the volatile and relational storage
backends, the transaction handle with its relay buffer of subscription events,
and the manager facade (`src/opendut-carl/src/resources/…`,
`src/opendut-carl/src/persistence/model/query/peer_descriptor.rs`).

UUID values are embedded as `Nat`; domain strings as `String`.  Components of
the repository whose sources are not available (the volatile storage internals,
the subscription channels, the `Resources::transaction` commit protocol, the
child-table query modules, the configuration library) are modelled from the
specification; each such definition carries a doc comment saying so.
-/

namespace OpenDut

/-- The closed set of resource kinds, from `resources/resource.rs` (each kind
is an `impl Resource` there). -/
inductive Kind where
  | clusterConfiguration
  | clusterDeployment
  | oldPeerConfiguration
  | peerConfiguration
  | peerDescriptor
  | peerState
deriving DecidableEq, Repr

/-- Network interface of a peer: id, name and configuration variant
(`NetworkInterfaceDescriptor` in the domain model; the configuration variant is
kept as its serialised form). -/
structure NetworkInterfaceDescriptor where
  id : Nat
  name : String
  configuration : String
deriving DecidableEq, Repr

/-- Device of a peer's topology; it references the network interface it is
attached to (`DeviceDescriptor`). -/
structure DeviceDescriptor where
  id : Nat
  name : String
  interface : Nat
deriving DecidableEq, Repr

/-- Executor of a peer (`ExecutorDescriptor`); the kind-specific payload is
kept as its serialised form. -/
structure ExecutorDescriptor where
  id : Nat
  kind : String
  resultsUrl : Option String
deriving DecidableEq, Repr

/-- `PeerNetworkDescriptor`: interfaces plus optional bridge name. -/
structure PeerNetworkDescriptor where
  interfaces : List NetworkInterfaceDescriptor
  bridgeName : Option String
deriving DecidableEq, Repr

/-- `Topology`: the set of devices of a peer. -/
structure Topology where
  devices : List DeviceDescriptor
deriving DecidableEq, Repr

/-- `PeerDescriptor`: full description of a peer, as destructured by
`persistence/model/query/peer_descriptor.rs`. -/
structure PeerDescriptor where
  id : Nat
  name : String
  location : Option String
  network : PeerNetworkDescriptor
  topology : Topology
  executors : List ExecutorDescriptor
deriving DecidableEq, Repr

/-- `ClusterConfiguration`: name, leader peer and member devices. -/
structure ClusterConfiguration where
  id : Nat
  name : String
  leader : Nat
  devices : List Nat
deriving DecidableEq, Repr

/-- `ClusterDeployment`: records that a cluster should be deployed. -/
structure ClusterDeployment where
  id : Nat
deriving DecidableEq, Repr

/-- The value type of each resource kind.  The three kinds whose domain types
the claims never inspect (old/current peer configuration, peer state) are
carried as opaque `Nat` payloads; the store treats all values opaquely. -/
@[reducible] def Val : Kind → Type
  | .clusterConfiguration => ClusterConfiguration
  | .clusterDeployment => ClusterDeployment
  | .oldPeerConfiguration => Nat
  | .peerConfiguration => Nat
  | .peerDescriptor => PeerDescriptor
  | .peerState => Nat

instance Val.decEq : (k : Kind) → DecidableEq (Val k)
  | .clusterConfiguration => inferInstanceAs (DecidableEq ClusterConfiguration)
  | .clusterDeployment => inferInstanceAs (DecidableEq ClusterDeployment)
  | .oldPeerConfiguration => inferInstanceAs (DecidableEq Nat)
  | .peerConfiguration => inferInstanceAs (DecidableEq Nat)
  | .peerDescriptor => inferInstanceAs (DecidableEq PeerDescriptor)
  | .peerState => inferInstanceAs (DecidableEq Nat)

instance exceptDecEq {ε α : Type} [DecidableEq ε] [DecidableEq α] :
    DecidableEq (Except ε α)
  | .ok a, .ok b =>
    if h : a = b then .isTrue (by rw [h]) else .isFalse (by simp [h])
  | .error e, .error f =>
    if h : e = f then .isTrue (by rw [h]) else .isFalse (by simp [h])
  | .ok _, .error _ => .isFalse (fun hc => Except.noConfusion hc)
  | .error _, .ok _ => .isFalse (fun hc => Except.noConfusion hc)

/-- Upsert into an id-keyed association list: replace the value stored under
`id`, or append a fresh entry.  Models the per-kind map of the volatile
storage. -/
def upsert {α : Type} (id : Nat) (v : α) : List (Nat × α) → List (Nat × α)
  | [] => [(id, v)]
  | (i, w) :: rest => if i = id then (id, v) :: rest else (i, w) :: upsert id v rest

/-- Lookup in an id-keyed association list. -/
def lookupId {α : Type} (id : Nat) : List (Nat × α) → Option α
  | [] => none
  | (i, w) :: rest => if i = id then some w else lookupId id rest

/-- Delete every entry stored under `id`. -/
def removeId {α : Type} (id : Nat) : List (Nat × α) → List (Nat × α)
  | [] => []
  | (i, w) :: rest => if i = id then removeId id rest else (i, w) :: removeId id rest

/-- Upsert into a list of rows by an arbitrary key projection: the relational
`insert … on_conflict(key).do_update().set(…)` pattern of the query modules. -/
def upsertBy {α β : Type} [DecidableEq β] (key : α → β) (x : α) : List α → List α
  | [] => [x]
  | y :: ys => if key y = key x then x :: ys else y :: upsertBy key x ys

/-- `SubscriptionEvent` of a resource kind, from `resources/subscription.rs`
(re-exported by `resources/manager.rs`): `Inserted { id, value }` or
`Removed { id, value }`. -/
inductive SubscriptionEvent (k : Kind) where
  | inserted (id : Nat) (value : Val k)
  | removed (id : Nat) (value : Val k)
deriving DecidableEq

/-- Modelled from the spec: `ResourceSubscriptionChannels` (the subscription
bus, `resources/subscription.rs` is not under `src/`) holds one queue of
events per resource kind; used both for the live channels and for the relay
buffer of a transaction (`RelayedSubscriptionEvents` is the same type, see
`resources/transaction.rs`).  A queue is a FIFO list, oldest event first. -/
def RelayBuffer := (k : Kind) → List (SubscriptionEvent k)

/-- The empty relay buffer (`ResourceSubscriptionChannels::default`). -/
def RelayBuffer.empty : RelayBuffer := fun _ => []

/-- Modelled from the spec: `notify` appends an event to the queue of its
kind (the channel send; it never fails in this sequential model, matching the
"should successfully queue notification" expectation in the source). -/
def RelayBuffer.notify (b : RelayBuffer) (k : Kind) (e : SubscriptionEvent k) : RelayBuffer :=
  Function.update b k (b k ++ [e])

/-- Modelled from the spec: the live subscribers, one list of subscribers per
kind; each subscriber is represented by the list of events it has received so
far, oldest first. -/
def Subscribers := (k : Kind) → List (List (SubscriptionEvent k))

/-- Modelled from the spec: `notify` on the live channels delivers the event
to every subscriber of its kind (best-effort fan-out; no subscriber queue
bound is modelled). -/
def Subscribers.notify (s : Subscribers) (k : Kind) (e : SubscriptionEvent k) : Subscribers :=
  Function.update s k ((s k).map (fun received => received ++ [e]))

/-- Modelled from the spec: `subscribe` registers a fresh subscriber for a
kind; it has received no events yet. -/
def Subscribers.subscribe (s : Subscribers) (k : Kind) : Subscribers :=
  Function.update s k (s k ++ [[]])

/-- `PersistenceError` (`persistence/error.rs`): kind of failed operation,
resource kind name, offending id where applicable, and a cause. -/
inductive PersistenceError where
  | insertE (kind : String) (id : Nat) (cause : String)
  | removeE (kind : String) (id : Nat) (cause : String)
  | getE (kind : String) (id : Nat) (cause : String)
  | listE (kind : String) (cause : String)
deriving DecidableEq, Repr

/-- Render a `PersistenceError` for wrapping as the cause of another error
(the source nests the offending error via `thiserror`'s `#[source]`). -/
def PersistenceError.describe : PersistenceError → String
  | .insertE kind id cause => "Insert " ++ kind ++ " " ++ toString id ++ ": " ++ cause
  | .removeE kind id cause => "Remove " ++ kind ++ " " ++ toString id ++ ": " ++ cause
  | .getE kind id cause => "Get " ++ kind ++ " " ++ toString id ++ ": " ++ cause
  | .listE kind cause => "List " ++ kind ++ ": " ++ cause

/-! ## Relational backend: rows and tables

Rows mirror the `Persistable…` diesel structs.  The peer-descriptor parent row
is from `persistence/model/query/peer_descriptor.rs`; the child rows are
modelled from the spec (their query modules are not under `src/`): interface
rows are keyed by `(peer-id, interface-id)`, executor rows by
`(peer-id, executor-id)`, device rows by device id with a foreign key to the
interface they are attached to. -/

/-- `PersistablePeerDescriptor` (`query/peer_descriptor.rs`). -/
structure PersistablePeerDescriptor where
  peer_id : Nat
  name : String
  location : Option String
  network_bridge_name : Option String
deriving DecidableEq, Repr

/-- Modelled from the spec: network-interface row, keyed by
`(peer_id, interface_id)`, configuration variant serialised. -/
structure PersistableNetworkInterface where
  peer_id : Nat
  interface_id : Nat
  name : String
  configuration : String
deriving DecidableEq, Repr

/-- Modelled from the spec: device row, keyed by `device_id`, referencing the
interface it is attached to. -/
structure PersistableDevice where
  device_id : Nat
  name : String
  interface_id : Nat
deriving DecidableEq, Repr

/-- Modelled from the spec: executor row, keyed by
`(peer_id, executor_id)`, kind-specific payload serialised. -/
structure PersistableExecutor where
  peer_id : Nat
  executor_id : Nat
  kind : String
  results_url : Option String
deriving DecidableEq, Repr

/-- Modelled from the spec: cluster-configuration row (its query module is not
under `src/`; the member devices are kept inline rather than in the
`cluster_device` child table, which no claim exercises). -/
structure PersistableClusterConfiguration where
  cluster_id : Nat
  name : String
  leader_id : Nat
  devices : List Nat
deriving DecidableEq, Repr

/-- Modelled from the spec: cluster-deployment row; carries a foreign key to
the cluster-configuration table. -/
structure PersistableClusterDeployment where
  cluster_id : Nat
deriving DecidableEq, Repr

/-- The relational database: one table per resource kind plus the child tables
of the peer descriptor.  The three kinds the claims treat opaquely are plain
id-keyed tables. -/
structure Db where
  peer_descriptor : List PersistablePeerDescriptor
  network_interface : List PersistableNetworkInterface
  device : List PersistableDevice
  executor : List PersistableExecutor
  cluster_configuration : List PersistableClusterConfiguration
  cluster_deployment : List PersistableClusterDeployment
  old_peer_configuration : List (Nat × Nat)
  peer_configuration : List (Nat × Nat)
  peer_state : List (Nat × Nat)
deriving DecidableEq, Repr

/-- A freshly migrated, empty database. -/
def Db.empty : Db := ⟨[], [], [], [], [], [], [], [], []⟩

/-- `query::Filter` (`persistence/model/query/mod.rs`): list everything or
filter by an id. -/
inductive Filter (α : Type) where
  | byId (value : α)
  | all
deriving DecidableEq, Repr

/-- Collect a list of fallible conversions, stopping at the first error: the
`.collect::<PersistenceResult<Vec<_>>>()` pattern of the query modules. -/
def collectResults {ε α β : Type} (f : α → Except ε β) : List α → Except ε (List β)
  | [] => .ok []
  | a :: rest =>
    match f a with
    | .error e => .error e
    | .ok b =>
      match collectResults f rest with
      | .error e => .error e
      | .ok bs => .ok (b :: bs)

/-- `Option::map … .transpose()` over a fallible conversion. -/
def transposeOpt {ε α β : Type} (f : α → Except ε β) : Option α → Except ε (Option β)
  | none => .ok none
  | some a => (f a).map some

/-- Modelled from the spec: `PeerName::try_from` — domain validation that can
fail when a stored string is re-parsed (the domain crate is not under `src/`;
the rule kept is that a name must be non-empty). -/
def peerNameTryFrom (s : String) : Except String String :=
  if s = "" then .error "PeerName must not be empty" else .ok s

/-- Modelled from the spec: `PeerLocation::try_from` (non-empty). -/
def peerLocationTryFrom (s : String) : Except String String :=
  if s = "" then .error "PeerLocation must not be empty" else .ok s

/-- Modelled from the spec: `NetworkInterfaceName::try_from` (non-empty). -/
def networkInterfaceNameTryFrom (s : String) : Except String String :=
  if s = "" then .error "NetworkInterfaceName must not be empty" else .ok s

/-! ## Relational queries for the peer descriptor

`persistence/model/query/peer_descriptor.rs`; the child query modules it calls
(`network_interface_descriptor`, `device_descriptor`, `executor_descriptor`)
are not under `src/` and are modelled from the spec as upserts keyed by the
child id (plus the owning peer where the spec says so). -/

/-- Projection of a `PeerDescriptor` to its parent-table row
(the `PersistablePeerDescriptor` built in `insert`). -/
def PeerDescriptor.toPersistable (p : PeerDescriptor) : PersistablePeerDescriptor :=
  { peer_id := p.id
    name := p.name
    location := p.location
    network_bridge_name := p.network.bridgeName }

/-- `insert_persistable` (`query/peer_descriptor.rs` lines 50–59): upsert of
the parent row on conflict of the `peer_id` primary key. -/
def insertPersistable (row : PersistablePeerDescriptor) (db : Db) : Db :=
  { db with peer_descriptor := upsertBy (fun r => r.peer_id) row db.peer_descriptor }

/-- Row of one network interface of a peer. -/
def NetworkInterfaceDescriptor.toRow (peerId : Nat) (i : NetworkInterfaceDescriptor) :
    PersistableNetworkInterface :=
  { peer_id := peerId, interface_id := i.id, name := i.name, configuration := i.configuration }

/-- Modelled from the spec: `query::network_interface_descriptor::insert` —
upsert of the interface row keyed by `(peer_id, interface_id)`; database-level
failures other than foreign keys are not modelled. -/
def networkInterfaceInsertDb (i : NetworkInterfaceDescriptor) (peerId : Nat) (db : Db) : Db :=
  { db with network_interface :=
      upsertBy (fun r => (r.peer_id, r.interface_id)) (i.toRow peerId) db.network_interface }

/-- Row of one device. -/
def DeviceDescriptor.toRow (d : DeviceDescriptor) : PersistableDevice :=
  { device_id := d.id, name := d.name, interface_id := d.interface }

/-- Modelled from the spec: `query::device_descriptor::insert` — upsert keyed
by the device id; the foreign key to the referenced network interface is
enforced (§3 invariant 3: violations fail the insert with a `Persistence`
error). -/
def deviceInsertDb (d : DeviceDescriptor) (db : Db) : Except PersistenceError Db :=
  if db.network_interface.any (fun r => r.interface_id == d.interface) then
    .ok { db with device := upsertBy (fun r => r.device_id) d.toRow db.device }
  else
    .error (.insertE "DeviceDescriptor" d.id "foreign-key violation: no such network interface")

/-- Row of one executor of a peer. -/
def ExecutorDescriptor.toRow (peerId : Nat) (e : ExecutorDescriptor) : PersistableExecutor :=
  { peer_id := peerId, executor_id := e.id, kind := e.kind, results_url := e.resultsUrl }

/-- Modelled from the spec: `query::executor_descriptor::insert_into_database`
— upsert of the executor row keyed by `(peer_id, executor_id)`. -/
def executorInsertDb (e : ExecutorDescriptor) (peerId : Nat) (db : Db) : Db :=
  { db with executor :=
      upsertBy (fun r => (r.peer_id, r.executor_id)) (e.toRow peerId) db.executor }

/-- Run a fallible insert over each element in order, stopping at the first
error: the `for … { insert(…)?; }` loops of `insert`. -/
def foldInsertM {α : Type} (ins : α → Db → Except PersistenceError Db) :
    List α → Db → Except PersistenceError Db
  | [], db => .ok db
  | a :: rest, db =>
    match ins a db with
    | .error e => .error e
    | .ok db' => foldInsertM ins rest db'

/-- `insert` (`query/peer_descriptor.rs` lines 13–39): upsert the parent row,
then upsert each interface row, each device row, and each executor row. -/
def peerDescriptorInsertDb (p : PeerDescriptor) (db : Db) : Except PersistenceError Db :=
  let db1 := insertPersistable p.toPersistable db
  let db2 := p.network.interfaces.foldl (fun d i => networkInterfaceInsertDb i p.id d) db1
  match foldInsertM deviceInsertDb p.topology.devices db2 with
  | .error e => .error e
  | .ok db3 => .ok (p.executors.foldl (fun d e => executorInsertDb e p.id d) db3)

/-- Modelled from the spec:
`query::network_interface_descriptor::list_filtered_by_peer` — the interface
rows of a peer, converted back to descriptors. -/
def listInterfacesByPeer (peerId : Nat) (db : Db) : List NetworkInterfaceDescriptor :=
  (db.network_interface.filter (fun r => r.peer_id == peerId)).map
    (fun r => { id := r.interface_id, name := r.name, configuration := r.configuration })

/-- Modelled from the spec: `query::device_descriptor::list_filtered_by_peer`
— the device rows attached to an interface of the peer. -/
def listDevicesByPeer (peerId : Nat) (db : Db) : List DeviceDescriptor :=
  let interfaceIds := (db.network_interface.filter (fun r => r.peer_id == peerId)).map
    (fun r => r.interface_id)
  (db.device.filter (fun r => interfaceIds.contains r.interface_id)).map
    (fun r => { id := r.device_id, name := r.name, interface := r.interface_id })

/-- Modelled from the spec:
`query::executor_descriptor::list_filtered_by_peer`. -/
def listExecutorsByPeer (peerId : Nat) (db : Db) : List ExecutorDescriptor :=
  (db.executor.filter (fun r => r.peer_id == peerId)).map
    (fun r => { id := r.executor_id, kind := r.kind, resultsUrl := r.results_url })

/-- Reassembly of one listed parent row into a domain `PeerDescriptor`
(the closure inside `list`, `query/peer_descriptor.rs` lines 87–120):
re-parse the validated fields, then compose the child collections. -/
def composeRow (db : Db) (row : PersistablePeerDescriptor) :
    Except PersistenceError PeerDescriptor :=
  match peerNameTryFrom row.name with
  | .error cause => .error (.getE "PeerDescriptor" row.peer_id cause)
  | .ok name =>
    match transposeOpt peerLocationTryFrom row.location with
    | .error cause => .error (.getE "PeerDescriptor" row.peer_id cause)
    | .ok location =>
      match transposeOpt networkInterfaceNameTryFrom row.network_bridge_name with
      | .error cause => .error (.getE "PeerDescriptor" row.peer_id cause)
      | .ok bridge =>
        .ok { id := row.peer_id
              name := name
              location := location
              network := { interfaces := listInterfacesByPeer row.peer_id db
                           bridgeName := bridge }
              topology := { devices := listDevicesByPeer row.peer_id db }
              executors := listExecutorsByPeer row.peer_id db }

/-- `list` (`query/peer_descriptor.rs` lines 75–126): select the parent rows
(optionally filtered by peer id), then reassemble each; a failed conversion
surfaces as a `List` error wrapping the cause. -/
def peerDescriptorListDb (f : Filter Nat) (db : Db) :
    Except PersistenceError (List PeerDescriptor) :=
  let rows := match f with
    | .byId peerId => db.peer_descriptor.filter (fun r => r.peer_id == peerId)
    | .all => db.peer_descriptor
  match collectResults (composeRow db) rows with
  | .ok peers => .ok peers
  | .error cause =>
    .error (.listE "PeerDescriptor"
      ("Failed to convert from database values to PeerDescriptor. " ++ cause.describe))

/-- Delete of the parent row (`remove`, `query/peer_descriptor.rs` lines
65–70) together with the referential cascade modelled from the spec: deleting
the parent row removes its interface and executor rows, and the device rows
attached to those interfaces. -/
def deletePeerDescriptorCascade (peerId : Nat) (db : Db) : Db :=
  let removedInterfaces := (db.network_interface.filter (fun r => r.peer_id == peerId)).map
    (fun r => r.interface_id)
  { db with
      peer_descriptor := db.peer_descriptor.filter (fun r => r.peer_id != peerId)
      network_interface := db.network_interface.filter (fun r => r.peer_id != peerId)
      executor := db.executor.filter (fun r => r.peer_id != peerId)
      device := db.device.filter (fun r => !(removedInterfaces.contains r.interface_id)) }

/-- `remove` (`query/peer_descriptor.rs` lines 61–73): obtain the prior value
by listing by id and taking the first result, then delete the parent row
(children follow by cascade). -/
def peerDescriptorRemoveDb (peerId : Nat) (db : Db) :
    Except PersistenceError (Option PeerDescriptor × Db) :=
  match peerDescriptorListDb (.byId peerId) db with
  | .error e => .error e
  | .ok result => .ok (result.head?, deletePeerDescriptorCascade peerId db)

/-- The `Persistable` get for the peer descriptor: list by id, take the first
(spec §4.5). -/
def peerDescriptorGetDb (peerId : Nat) (db : Db) :
    Except PersistenceError (Option PeerDescriptor) :=
  (peerDescriptorListDb (.byId peerId) db).map (fun l => l.head?)

/-! ## Relational backend: per-kind dispatch

The `Persistable` mapper of each kind (spec §4.5).  The peer-descriptor mapper
is the one under `src/`; the cluster mappers are modelled from the spec — in
particular the cluster-deployment insert enforces its foreign key to the
cluster-configuration table ("the relational backend will refuse orphan
rows"). -/

/-- Insert of one resource of kind `k` into the relational database. -/
def Db.insertDb : (k : Kind) → Nat → Val k → Db → Except PersistenceError Db
  | .peerDescriptor, _, v, db => peerDescriptorInsertDb v db
  | .clusterConfiguration, _, v, db =>
    .ok { db with cluster_configuration :=
      (upsertBy (fun r => r.cluster_id)
        { cluster_id := v.id, name := v.name, leader_id := v.leader, devices := v.devices }
        db.cluster_configuration) }
  | .clusterDeployment, _, v, db =>
    if db.cluster_configuration.any (fun r => r.cluster_id == v.id) then
      .ok { db with cluster_deployment :=
        (upsertBy (fun r => r.cluster_id) { cluster_id := v.id } db.cluster_deployment) }
    else
      .error (.insertE "ClusterDeployment" v.id
        "foreign-key violation: no ClusterConfiguration with this id")
  | .oldPeerConfiguration, id, v, db =>
    .ok { db with old_peer_configuration := upsert id v db.old_peer_configuration }
  | .peerConfiguration, id, v, db =>
    .ok { db with peer_configuration := upsert id v db.peer_configuration }
  | .peerState, id, v, db =>
    .ok { db with peer_state := upsert id v db.peer_state }

/-- Get of one resource of kind `k` from the relational database
(list by id, take the first). -/
def Db.getDb : (k : Kind) → Nat → Db → Except PersistenceError (Option (Val k))
  | .peerDescriptor, id, db => peerDescriptorGetDb id db
  | .clusterConfiguration, id, db =>
    .ok (((db.cluster_configuration.filter (fun r => r.cluster_id == id)).map
      (fun r => ClusterConfiguration.mk r.cluster_id r.name r.leader_id r.devices)).head?)
  | .clusterDeployment, id, db =>
    .ok (((db.cluster_deployment.filter (fun r => r.cluster_id == id)).map
      (fun r => ClusterDeployment.mk r.cluster_id)).head?)
  | .oldPeerConfiguration, id, db => .ok (lookupId id db.old_peer_configuration)
  | .peerConfiguration, id, db => .ok (lookupId id db.peer_configuration)
  | .peerState, id, db => .ok (lookupId id db.peer_state)

/-- List of all resources of kind `k` in the relational database. -/
def Db.listDb : (k : Kind) → Db → Except PersistenceError (List (Val k))
  | .peerDescriptor, db => peerDescriptorListDb .all db
  | .clusterConfiguration, db =>
    .ok (db.cluster_configuration.map
      (fun r => ClusterConfiguration.mk r.cluster_id r.name r.leader_id r.devices))
  | .clusterDeployment, db =>
    .ok (db.cluster_deployment.map (fun r => ClusterDeployment.mk r.cluster_id))
  | .oldPeerConfiguration, db => .ok (db.old_peer_configuration.map (fun e => e.2))
  | .peerConfiguration, db => .ok (db.peer_configuration.map (fun e => e.2))
  | .peerState, db => .ok (db.peer_state.map (fun e => e.2))

/-- Remove of one resource of kind `k` from the relational database, returning
the prior value. -/
def Db.removeDb : (k : Kind) → Nat → Db → Except PersistenceError (Option (Val k) × Db)
  | .peerDescriptor, id, db => peerDescriptorRemoveDb id db
  | .clusterConfiguration, id, db =>
    match Db.getDb .clusterConfiguration id db with
    | .error e => .error e
    | .ok prior =>
      .ok (prior, { db with cluster_configuration :=
        db.cluster_configuration.filter (fun r => r.cluster_id != id) })
  | .clusterDeployment, id, db =>
    match Db.getDb .clusterDeployment id db with
    | .error e => .error e
    | .ok prior =>
      .ok (prior, { db with cluster_deployment :=
        db.cluster_deployment.filter (fun r => r.cluster_id != id) })
  | .oldPeerConfiguration, id, db =>
    .ok (lookupId id db.old_peer_configuration,
      { db with old_peer_configuration := removeId id db.old_peer_configuration })
  | .peerConfiguration, id, db =>
    .ok (lookupId id db.peer_configuration,
      { db with peer_configuration := removeId id db.peer_configuration })
  | .peerState, id, db =>
    .ok (lookupId id db.peer_state, { db with peer_state := removeId id db.peer_state })

/-! ## Storage backends behind one contract -/

/-- Modelled from the spec: the volatile in-memory backend
(`resources/storage/volatile.rs` is not under `src/`) — a per-kind mapping
from id to value. -/
def VolatileStore := (k : Kind) → List (Nat × Val k)

/-- `VolatileResourcesStorage::default()`: all kinds empty. -/
def VolatileStore.empty : VolatileStore := fun _ => []

/-- `ResourcesStorage` (`resources/storage/mod.rs`): the tagged union of the
two backends.  The `Resources` wrapper of the manager (not under `src/`)
carries no further state, so this type also stands for it. -/
inductive Resources where
  | persistent (db : Db)
  | volatile (store : VolatileStore)

/-- Backend dispatch of the storage-contract `insert`
(`ResourcesStorageApi`). -/
def Resources.insertBackend (k : Kind) (id : Nat) (v : Val k) :
    Resources → Except PersistenceError Resources
  | .volatile s => .ok (.volatile (Function.update s k (upsert id v (s k))))
  | .persistent db =>
    match Db.insertDb k id v db with
    | .error e => .error e
    | .ok db' => .ok (.persistent db')

/-- Backend dispatch of the storage-contract `remove`, returning the prior
value. -/
def Resources.removeBackend (k : Kind) (id : Nat) :
    Resources → Except PersistenceError (Option (Val k) × Resources)
  | .volatile s =>
    .ok (lookupId id (s k), .volatile (Function.update s k (removeId id (s k))))
  | .persistent db =>
    match Db.removeDb k id db with
    | .error e => .error e
    | .ok (prior, db') => .ok (prior, .persistent db')

/-- Backend dispatch of the storage-contract `get`. -/
def Resources.getBackend (k : Kind) (id : Nat) :
    Resources → Except PersistenceError (Option (Val k))
  | .volatile s => .ok (lookupId id (s k))
  | .persistent db => Db.getDb k id db

/-- Backend dispatch of the storage-contract `list`. -/
def Resources.listBackend (k : Kind) :
    Resources → Except PersistenceError (List (Val k))
  | .volatile s => .ok ((s k).map (fun e => e.2))
  | .persistent db => Db.listDb k db

/-! ## The transaction handle -/

/-- `ResourcesTransaction` (`resources/transaction.rs`): the backend
transaction (a snapshot of the store, mutated in place) together with the
relay buffer of subscription events. -/
structure ResourcesTransaction where
  backend : Resources
  events : RelayBuffer

/-- `ResourcesTransaction::insert` (`transaction.rs` lines 31–53): forward to
the backend transaction; when — and only when — the backend insert succeeded,
queue an `Inserted { id, value }` event on the relay buffer. -/
def ResourcesTransaction.insert (k : Kind) (id : Nat) (v : Val k)
    (tx : ResourcesTransaction) : Except PersistenceError Unit × ResourcesTransaction :=
  match tx.backend.insertBackend k id v with
  | .ok backend' =>
    (.ok (), { backend := backend', events := tx.events.notify k (.inserted id v) })
  | .error e => (.error e, tx)

/-- `ResourcesTransaction::remove` (`transaction.rs` lines 55–61): forward to
the backend transaction.  No event is queued (the source notifies only on
insert; `remove` does not even require `R: Subscribable`). -/
def ResourcesTransaction.remove (k : Kind) (id : Nat)
    (tx : ResourcesTransaction) :
    Except PersistenceError (Option (Val k)) × ResourcesTransaction :=
  match tx.backend.removeBackend k id with
  | .ok (prior, backend') => (.ok prior, { tx with backend := backend' })
  | .error e => (.error e, tx)

/-- `ResourcesTransaction::get` (`transaction.rs` lines 63–69): forward to the
backend transaction, hence read-your-writes on the snapshot. -/
def ResourcesTransaction.get (k : Kind) (id : Nat) (tx : ResourcesTransaction) :
    Except PersistenceError (Option (Val k)) :=
  tx.backend.getBackend k id

/-- `ResourcesTransaction::list` (`transaction.rs` lines 71–77). -/
def ResourcesTransaction.list (k : Kind) (tx : ResourcesTransaction) :
    Except PersistenceError (List (Val k)) :=
  tx.backend.listBackend k

/-- Modelled from the spec: `Resources::transaction` (the `Resources` module
is not under `src/`; spec §4.1 commit/rollback protocol): begin a backend
transaction with an empty relay buffer, run the user closure on the handle;
on `Ok` commit the backend transaction and hand back the queued events, on
`Err` roll the backend transaction back and discard the relay buffer.  The
outer result reports commit/rollback infrastructure failure, which the
sequential model cannot exhibit. -/
def Resources.transaction {T E : Type} (self : Resources)
    (f : ResourcesTransaction → Except E T × ResourcesTransaction) :
    Except PersistenceError (Except E T × RelayBuffer) × Resources :=
  match f { backend := self, events := RelayBuffer.empty } with
  | (.ok t, tx') => (.ok (.ok t, tx'.events), tx'.backend)
  | (.error e, _) => (.ok (.error e, RelayBuffer.empty), self)

/-! ## The Resource Manager facade -/

/-- The kinds in the order `send_relayed_subscription_events` drains their
channels (`manager.rs` lines 121–126). -/
def kindOrder : List Kind :=
  [.clusterConfiguration, .clusterDeployment, .oldPeerConfiguration,
   .peerConfiguration, .peerDescriptor, .peerState]

/-- Drain one kind's relayed queue in FIFO order into the live channel
(the `while let Ok(event) = receiver.try_recv()` loop). -/
def drainChannel (k : Kind) (events : List (SubscriptionEvent k)) (s : Subscribers) :
    Subscribers :=
  events.foldl (fun acc e => acc.notify k e) s

/-- `ResourcesManager::send_relayed_subscription_events` (`manager.rs` lines
96–127): drain the six relayed channels, one kind after the other in the
fixed order of `kindOrder`. -/
def sendRelayedSubscriptionEvents (events : RelayBuffer) (s : Subscribers) : Subscribers :=
  kindOrder.foldl (fun acc k => drainChannel k (events k) acc) s

/-- The sequence of `notify` calls `send_relayed_subscription_events` makes,
in execution order: all events of the first kind of `kindOrder` in queue
order, then all events of the second kind, and so on. -/
def notificationOrder (events : RelayBuffer) : List ((k : Kind) × SubscriptionEvent k) :=
  (kindOrder.map (fun k => (events k).map
    (fun e => (⟨k, e⟩ : (k : Kind) × SubscriptionEvent k)))).flatten

/-- The state behind the `ResourcesManager`'s lock (`manager.rs`: `State`):
the storage and the live subscribers.  The lock itself needs no model — every
operation below is one full critical section. -/
structure ResourcesManager where
  resources : Resources
  subscribers : Subscribers

/-- `ResourcesManager::insert` (`manager.rs` lines 34–43): one transaction
containing just this insert, then send the relayed events. -/
def ResourcesManager.insert (k : Kind) (id : Nat) (v : Val k)
    (self : ResourcesManager) : Except PersistenceError Unit × ResourcesManager :=
  match self.resources.transaction (fun tx => ResourcesTransaction.insert k id v tx) with
  | (.ok (result, events), resources') =>
    (result, { resources := resources'
               subscribers := sendRelayedSubscriptionEvents events self.subscribers })
  | (.error e, resources') => (.error e, { resources := resources', subscribers := self.subscribers })

/-- `ResourcesManager::remove` (`manager.rs` lines 45–53): one transaction
containing just this remove, then send the relayed events. -/
def ResourcesManager.remove (k : Kind) (id : Nat) (self : ResourcesManager) :
    Except PersistenceError (Option (Val k)) × ResourcesManager :=
  match self.resources.transaction (fun tx => ResourcesTransaction.remove k id tx) with
  | (.ok (result, events), resources') =>
    (result, { resources := resources'
               subscribers := sendRelayedSubscriptionEvents events self.subscribers })
  | (.error e, resources') => (.error e, { resources := resources', subscribers := self.subscribers })

/-- `ResourcesManager::get` (`manager.rs` lines 55–59): read path. -/
def ResourcesManager.get (k : Kind) (id : Nat) (self : ResourcesManager) :
    Except PersistenceError (Option (Val k)) :=
  self.resources.getBackend k id

/-- `ResourcesManager::list` (`manager.rs` lines 61–65): read path. -/
def ResourcesManager.list (k : Kind) (self : ResourcesManager) :
    Except PersistenceError (List (Val k)) :=
  self.resources.listBackend k

/-- `ResourcesManager::resources_mut` (`manager.rs` lines 77–88): run the
user closure inside a transaction, send the relayed events, and return the
user's own result on the inner level. -/
def ResourcesManager.resourcesMut {T E : Type}
    (f : ResourcesTransaction → Except E T × ResourcesTransaction)
    (self : ResourcesManager) :
    Except PersistenceError (Except E T) × ResourcesManager :=
  match self.resources.transaction f with
  | (.ok (result, events), resources') =>
    (.ok result, { resources := resources'
                   subscribers := sendRelayedSubscriptionEvents events self.subscribers })
  | (.error e, resources') => (.error e, { resources := resources', subscribers := self.subscribers })

/-- `ResourcesManager::subscribe` (`manager.rs` lines 90–94): register a new
subscriber of kind `k`. -/
def ResourcesManager.subscribe (k : Kind) (self : ResourcesManager) : ResourcesManager :=
  { self with subscribers := self.subscribers.subscribe k }

/-! ## A canonical user closure

A user closure built from a program-order list of typed operations, each
chained with `?` (used to state the transaction-level claims). -/

/-- One typed mutation performed through the transaction handle. -/
inductive TxOp where
  | insertOp (k : Kind) (id : Nat) (v : Val k)
  | removeOp (k : Kind) (id : Nat)

/-- Execute one operation on the handle, discarding the fetched prior value of
a remove. -/
def stepOp : TxOp → ResourcesTransaction → Except PersistenceError Unit × ResourcesTransaction
  | .insertOp k id v, tx => ResourcesTransaction.insert k id v tx
  | .removeOp k id, tx =>
    match ResourcesTransaction.remove k id tx with
    | (.ok _, tx') => (.ok (), tx')
    | (.error e, tx') => (.error e, tx')

/-- Run the operations in order, stopping at the first error (`?`). -/
def runOps : List TxOp → ResourcesTransaction → Except PersistenceError Unit × ResourcesTransaction
  | [], tx => (.ok (), tx)
  | op :: rest, tx =>
    match stepOp op tx with
    | (.ok _, tx') => runOps rest tx'
    | (.error e, tx') => (.error e, tx')

/-- The effect of one operation directly on a volatile per-kind store. -/
def applyOpStore (s : VolatileStore) : TxOp → VolatileStore
  | .insertOp k id v => Function.update s k (upsert id v (s k))
  | .removeOp k id => Function.update s k (removeId id (s k))

/-- The effect of a program-order list of operations on a volatile store. -/
def applyOpsStore (ops : List TxOp) (s : VolatileStore) : VolatileStore :=
  ops.foldl applyOpStore s

/-! ## Configuration and backend selection

`PersistenceOptions::load` and `ResourcesStorage::connect`
(`resources/storage/mod.rs`); the `config` and `url` crates and
`opendut_util::settings::LoadError` are external and modelled from the spec. -/

/-- Modelled from the spec: a value in the source-agnostic key/value
configuration. -/
inductive ConfigValue where
  | boolValue (b : Bool)
  | stringValue (s : String)
deriving DecidableEq, Repr

/-- Modelled from the spec: the key/value configuration. -/
def Config := List (String × ConfigValue)

/-- Modelled from the spec: an error of the configuration library. -/
inductive ConfigError where
  | notFound (key : String)
  | wrongType (key : String)
deriving DecidableEq, Repr

/-- Modelled from the spec: `config.get_bool(key)`. -/
def Config.getBool (cfg : Config) (key : String) : Except ConfigError Bool :=
  match cfg.lookup key with
  | some (.boolValue b) => .ok b
  | some (.stringValue _) => .error (.wrongType key)
  | none => .error (.notFound key)

/-- Modelled from the spec: `config.get_string(key)`. -/
def Config.getString (cfg : Config) (key : String) : Except ConfigError String :=
  match cfg.lookup key with
  | some (.stringValue s) => .ok s
  | some (.boolValue _) => .error (.wrongType key)
  | none => .error (.notFound key)

/-- Modelled from the spec: a parsed absolute URL (the `url` crate is
external; parsing is passed in as a function where needed). -/
structure Url where
  value : String
deriving DecidableEq, Repr

/-- `Password` (`storage/mod.rs` lines 97–109): wrapper for a string that
withholds debug/display formatting. -/
structure Password where
  secret : String
deriving DecidableEq

/-- `DatabaseConnectInfo` (`storage/mod.rs` lines 91–96). -/
structure DatabaseConnectInfo where
  url : Url
  username : String
  password : Password
deriving DecidableEq

/-- Modelled from the spec: `opendut_util::settings::LoadError`
(`opendut-util` settings are not under `src/`): retrieval failure of a named
field, a parse failure of a named field carrying the offending value, or an
error propagated straight from the configuration library. -/
inductive LoadError where
  | fieldRetrieval (field : String) (source : ConfigError)
  | parse (field : String) (value : String) (source : String)
  | configError (source : ConfigError)
deriving DecidableEq

/-- `PersistenceOptions` (`storage/mod.rs` lines 42–45). -/
inductive PersistenceOptions where
  | enabled (databaseConnectInfo : DatabaseConnectInfo)
  | disabled
deriving DecidableEq

/-- `PersistenceOptions::load` (`storage/mod.rs` lines 47–90): read
`persistence.enabled`; when true, read and validate the three
`persistence.database.*` fields (URL parse failures surface as
`LoadError::Parse` naming the field and value); when false, return `Disabled`
without touching any other key. -/
def PersistenceOptions.load (parseUrl : String → Except String Url) (config : Config) :
    Except LoadError PersistenceOptions :=
  match config.getBool "persistence.enabled" with
  | .error source => .error (.configError source)
  | .ok persistenceEnabled =>
    if persistenceEnabled then
      match config.getString "persistence.database.url" with
      | .error source => .error (.fieldRetrieval "persistence.database.url" source)
      | .ok value =>
        match parseUrl value with
        | .error cause => .error (.parse "persistence.database.url" value cause)
        | .ok url =>
          match config.getString "persistence.database.username" with
          | .error source => .error (.fieldRetrieval "persistence.database.username" source)
          | .ok username =>
            match config.getString "persistence.database.password" with
            | .error source => .error (.fieldRetrieval "persistence.database.password" source)
            | .ok password =>
              .ok (.enabled { url := url, username := username
                              password := { secret := password } })
    else
      .ok .disabled

/-- `ConnectionError` (`storage/mod.rs` lines 36–40). -/
inductive ConnectionError where
  | database (url : Url) (source : String)
deriving DecidableEq

/-- `ResourcesStorage::connect` (`storage/mod.rs` lines 21–33): on `Enabled`
connect the relational backend (the actual database connection is passed in
as a function); on `Disabled` construct the default (empty) volatile
backend. -/
def Resources.connect (connectDatabase : DatabaseConnectInfo → Except String Db)
    (options : PersistenceOptions) : Except ConnectionError Resources :=
  match options with
  | .enabled databaseConnectInfo =>
    match connectDatabase databaseConnectInfo with
    | .error cause => .error (.database databaseConnectInfo.url cause)
    | .ok db => .ok (.persistent db)
  | .disabled => .ok (.volatile VolatileStore.empty)

/-- A peer descriptor whose stored representation re-parses: its name (and
optional location and bridge name) are non-empty, its child collections carry
pairwise distinct ids, and each device is attached to one of the peer's own
interfaces (§3 invariant 3). -/
def PeerDescriptor.wellFormed (p : PeerDescriptor) : Prop :=
  p.name ≠ "" ∧
  p.location.all (fun s => !(s == "")) = true ∧
  p.network.bridgeName.all (fun s => !(s == "")) = true ∧
  (p.network.interfaces.map (fun i => i.id)).Nodup ∧
  (p.topology.devices.map (fun d => d.id)).Nodup ∧
  (p.executors.map (fun e => e.id)).Nodup ∧
  ∀ d ∈ p.topology.devices, d.interface ∈ p.network.interfaces.map (fun i => i.id)

instance (p : PeerDescriptor) : Decidable p.wellFormed := by
  unfold PeerDescriptor.wellFormed
  infer_instance

/-! ## Helper lemmas: id-keyed association lists -/

theorem lookupId_upsert_self {α : Type} (id : Nat) (v : α) (l : List (Nat × α)) :
    lookupId id (upsert id v l) = some v := by
  induction l with
  | nil => simp [upsert, lookupId]
  | cons hd tl ih =>
    obtain ⟨i, w⟩ := hd
    by_cases h : i = id
    · simp [upsert, h, lookupId]
    · simp [upsert, h, lookupId, ih]

theorem lookupId_removeId_self {α : Type} (id : Nat) (l : List (Nat × α)) :
    lookupId id (removeId id l) = none := by
  induction l with
  | nil => simp [removeId, lookupId]
  | cons hd tl ih =>
    obtain ⟨i, w⟩ := hd
    by_cases h : i = id
    · simp [removeId, h, ih]
    · simp [removeId, h, lookupId, ih]

/-! ## Helper lemmas: keyed upserts of relational rows -/

theorem upsertBy_of_key_not_mem {α β : Type} [DecidableEq β] (key : α → β) (x : α)
    (t : List α) (h : key x ∉ t.map key) : upsertBy key x t = t ++ [x] := by
  induction t with
  | nil => simp [upsertBy]
  | cons y ys ih =>
    simp only [List.map_cons, List.mem_cons] at h
    push_neg at h
    have hyx : ¬ key y = key x := fun hc => h.1 hc.symm
    simp [upsertBy, hyx, ih h.2]

theorem mem_upsertBy_of_key_ne {α β : Type} [DecidableEq β] (key : α → β) (x r : α)
    (t : List α) (hr : r ∈ t) (hk : key r ≠ key x) : r ∈ upsertBy key x t := by
  induction t with
  | nil => cases hr
  | cons y ys ih =>
    by_cases hc : key y = key x
    · rcases List.mem_cons.mp hr with h | h
      · exact absurd (by rw [h]; exact hc) hk
      · simp [upsertBy, hc, List.mem_cons, h]
    · simp only [upsertBy, if_neg hc, List.mem_cons]
      rcases List.mem_cons.mp hr with h | h
      · exact Or.inl h
      · exact Or.inr (ih h)

theorem find?_upsertBy_key {α β : Type} [DecidableEq β] (key : α → β) (x : α)
    (t : List α) (p : α → Bool) (hx : p x = true)
    (hother : ∀ y, key y ≠ key x → p y = false) :
    (upsertBy key x t).find? p = some x := by
  induction t with
  | nil => simp [upsertBy, List.find?, hx]
  | cons y ys ih =>
    by_cases hc : key y = key x
    · simp [upsertBy, hc, List.find?, hx]
    · simp only [upsertBy, if_neg hc]
      rw [List.find?_cons, hother y hc, ih]

theorem foldl_upsertBy_append {α β : Type} [DecidableEq β] (key : α → β)
    (l t : List α) (hnodup : (l.map key).Nodup)
    (hdisk : ∀ x ∈ l, key x ∉ t.map key) :
    l.foldl (fun acc x => upsertBy key x acc) t = t ++ l := by
  induction l generalizing t with
  | nil => simp
  | cons x xs ih =>
    simp only [List.map_cons, List.nodup_cons] at hnodup
    have hx : key x ∉ t.map key := hdisk x (List.mem_cons_self x xs)
    simp only [List.foldl_cons, upsertBy_of_key_not_mem key x t hx]
    have hdisk' : ∀ y ∈ xs, key y ∉ (t ++ [x]).map key := by
      intro y hy
      rw [List.map_append]
      simp only [List.mem_append, List.map_cons, List.map_nil, List.mem_singleton]
      rintro (hmem | hmem)
      · exact hdisk y (List.mem_cons_of_mem x hy) hmem
      · exact hnodup.1 (hmem ▸ List.mem_map_of_mem key hy)
    rw [ih (t ++ [x]) hnodup.2 hdisk', List.append_assoc]
    simp

theorem foldl_upsertBy_of_nil {α β : Type} [DecidableEq β] (key : α → β)
    (l : List α) (hnodup : (l.map key).Nodup) :
    l.foldl (fun acc x => upsertBy key x acc) [] = l := by
  simpa using foldl_upsertBy_append key l [] hnodup (by simp)

theorem mem_foldl_upsertBy {α β : Type} [DecidableEq β] (key : α → β)
    (l t : List α) (r : α) (hr : r ∈ t) (hk : key r ∉ l.map key) :
    r ∈ l.foldl (fun acc x => upsertBy key x acc) t := by
  induction l generalizing t with
  | nil => simpa using hr
  | cons x xs ih =>
    simp only [List.map_cons, List.mem_cons] at hk
    push_neg at hk
    exact ih (upsertBy key x t) (mem_upsertBy_of_key_ne key x r t hr hk.1) hk.2

/-! ## Helper lemmas: subscriber channels and the relay drain -/

theorem drainChannel_self (k : Kind) (events : List (SubscriptionEvent k)) (s : Subscribers) :
    drainChannel k events s k = (s k).map (fun received => received ++ events) := by
  induction events generalizing s with
  | nil => simp [drainChannel]
  | cons e rest ih =>
    simp only [drainChannel, List.foldl_cons] at *
    rw [ih]
    simp [Subscribers.notify, Function.update_same, List.map_map, Function.comp]

theorem drainChannel_other (k k' : Kind) (hk : k' ≠ k)
    (events : List (SubscriptionEvent k)) (s : Subscribers) :
    drainChannel k events s k' = s k' := by
  induction events generalizing s with
  | nil => rfl
  | cons e rest ih =>
    simp only [drainChannel, List.foldl_cons] at *
    rw [ih]
    simp [Subscribers.notify, Function.update_noteq hk]

theorem sendRelayed_apply (events : RelayBuffer) (s : Subscribers) (k : Kind) :
    sendRelayedSubscriptionEvents events s k
      = (s k).map (fun received => received ++ events k) := by
  cases k <;>
    simp [sendRelayedSubscriptionEvents, kindOrder, drainChannel_other, drainChannel_self]

theorem sendRelayed_empty (s : Subscribers) :
    sendRelayedSubscriptionEvents RelayBuffer.empty s = s := by
  funext k
  rw [sendRelayed_apply]
  simp [RelayBuffer.empty]

/-! ## Helper lemmas: the relational peer-descriptor mapper -/

theorem upsertBy_idem {α β : Type} [DecidableEq β] (key : α → β) (x : α) (t : List α) :
    upsertBy key x (upsertBy key x t) = upsertBy key x t := by
  induction t with
  | nil => simp [upsertBy]
  | cons y ys ih =>
    by_cases hc : key y = key x
    · simp [upsertBy, hc]
    · simp [upsertBy, hc, ih]

theorem contains_of_mem {a : Nat} {l : List Nat} (h : a ∈ l) : l.contains a = true := by
  induction l with
  | nil => cases h
  | cons b bs ih =>
    rcases List.mem_cons.mp h with hh | hh
    · simp [List.contains, List.elem, hh]
    · by_cases hb : a == b
      · simp [List.contains, List.elem, hb]
      · simpa [List.contains, List.elem, hb] using ih hh

theorem interfaces_foldl_eq (l : List NetworkInterfaceDescriptor) (peerId : Nat) (db : Db) :
    l.foldl (fun d i => networkInterfaceInsertDb i peerId d) db
      = { db with network_interface :=
            (l.foldl (fun t i =>
              upsertBy (fun r => (r.peer_id, r.interface_id)) (i.toRow peerId) t)
              db.network_interface) } := by
  induction l generalizing db with
  | nil => rfl
  | cons i rest ih =>
    simp only [List.foldl_cons]
    rw [ih]
    rfl

theorem executors_foldl_eq (l : List ExecutorDescriptor) (peerId : Nat) (db : Db) :
    l.foldl (fun d e => executorInsertDb e peerId d) db
      = { db with executor :=
            (l.foldl (fun t e =>
              upsertBy (fun r => (r.peer_id, r.executor_id)) (e.toRow peerId) t)
              db.executor) } := by
  induction l generalizing db with
  | nil => rfl
  | cons e rest ih =>
    simp only [List.foldl_cons]
    rw [ih]
    rfl

theorem devices_foldInsertM_ok (l : List DeviceDescriptor) (db : Db)
    (hfk : ∀ d ∈ l, db.network_interface.any (fun r => r.interface_id == d.interface) = true) :
    foldInsertM deviceInsertDb l db
      = .ok { db with device :=
          (l.foldl (fun t d => upsertBy (fun r => r.device_id) d.toRow t) db.device) } := by
  induction l generalizing db with
  | nil => rfl
  | cons d rest ih =>
    have hd := hfk d (List.mem_cons_self d rest)
    have h1 : foldInsertM deviceInsertDb (d :: rest) db
        = foldInsertM deviceInsertDb rest
            { db with device := upsertBy (fun r => r.device_id) d.toRow db.device } := by
      simp only [foldInsertM, deviceInsertDb, if_pos hd]
    rw [h1]
    have hrest : ∀ d' ∈ rest,
        db.network_interface.any (fun r => r.interface_id == d'.interface) = true :=
      fun d' hd' => hfk d' (List.mem_cons_of_mem d hd')
    exact ih { db with device := upsertBy (fun r => r.device_id) d.toRow db.device } hrest

theorem devices_foldInsertM_preserves (l : List DeviceDescriptor) (db db3 : Db)
    (h : foldInsertM deviceInsertDb l db = .ok db3) :
    db3.peer_descriptor = db.peer_descriptor
      ∧ db3.network_interface = db.network_interface
      ∧ db3.executor = db.executor := by
  induction l generalizing db with
  | nil =>
    simp only [foldInsertM] at h
    cases h
    exact ⟨rfl, rfl, rfl⟩
  | cons d rest ih =>
    simp only [foldInsertM, deviceInsertDb] at h
    by_cases hc : db.network_interface.any (fun r => r.interface_id == d.interface) = true
    · rw [if_pos hc] at h
      exact ih { db with device := upsertBy (fun r => r.device_id) d.toRow db.device } h
    · rw [if_neg hc] at h
      cases h

theorem foldl_upsertBy_map_append {α β γ : Type} [DecidableEq γ] (key : β → γ) (f : α → β)
    (l : List α) (t : List β) (hnodup : (l.map (fun a => key (f a))).Nodup)
    (hdisk : ∀ a ∈ l, key (f a) ∉ t.map key) :
    l.foldl (fun acc a => upsertBy key (f a) acc) t = t ++ l.map f := by
  induction l generalizing t with
  | nil => simp
  | cons a rest ih =>
    simp only [List.map_cons, List.nodup_cons] at hnodup
    have ha : key (f a) ∉ t.map key := hdisk a (List.mem_cons_self a rest)
    simp only [List.foldl_cons, upsertBy_of_key_not_mem key (f a) t ha]
    have hdisk' : ∀ y ∈ rest, key (f y) ∉ (t ++ [f a]).map key := by
      intro y hy
      rw [List.map_append]
      simp only [List.mem_append, List.map_cons, List.map_nil, List.mem_singleton]
      rintro (hmem | hmem)
      · exact hdisk y (List.mem_cons_of_mem a hy) hmem
      · exact hnodup.1 (hmem ▸ List.mem_map_of_mem (fun a => key (f a)) hy)
    rw [ih (t ++ [f a]) hnodup.2 hdisk', List.append_assoc]
    simp

theorem foldl_upsertBy_map_nil {α β γ : Type} [DecidableEq γ] (key : β → γ) (f : α → β)
    (l : List α) (hnodup : (l.map (fun a => key (f a))).Nodup) :
    l.foldl (fun acc a => upsertBy key (f a) acc) [] = l.map f := by
  simpa using foldl_upsertBy_map_append key f l [] hnodup (by simp)

theorem peer_insert_tables (p : PeerDescriptor) (db db' : Db)
    (h : peerDescriptorInsertDb p db = .ok db') :
    db'.peer_descriptor
        = upsertBy (fun r => r.peer_id) p.toPersistable db.peer_descriptor
      ∧ db'.network_interface
        = p.network.interfaces.foldl (fun t i =>
            upsertBy (fun r => (r.peer_id, r.interface_id)) (i.toRow p.id) t)
            db.network_interface := by
  simp only [peerDescriptorInsertDb] at h
  rw [interfaces_foldl_eq] at h
  cases hm : foldInsertM deviceInsertDb p.topology.devices
      { insertPersistable p.toPersistable db with network_interface :=
          (p.network.interfaces.foldl (fun t i =>
            upsertBy (fun r => (r.peer_id, r.interface_id)) (i.toRow p.id) t)
            (insertPersistable p.toPersistable db).network_interface) } with
  | error er =>
    rw [hm] at h
    cases h
  | ok db3 =>
    rw [hm] at h
    simp only at h
    cases h
    have hpres := devices_foldInsertM_preserves _ _ _ hm
    rw [executors_foldl_eq]
    refine ⟨?_, ?_⟩
    · simpa [insertPersistable] using hpres.1
    · simpa [insertPersistable] using hpres.2.1

theorem peer_insert_empty (p : PeerDescriptor)
    (hnI : (p.network.interfaces.map (fun i => i.id)).Nodup)
    (hnD : (p.topology.devices.map (fun d => d.id)).Nodup)
    (hnE : (p.executors.map (fun e => e.id)).Nodup)
    (hdev : ∀ d ∈ p.topology.devices, d.interface ∈ p.network.interfaces.map (fun i => i.id)) :
    ∃ db', peerDescriptorInsertDb p Db.empty = .ok db'
      ∧ db'.peer_descriptor = [p.toPersistable]
      ∧ db'.network_interface = p.network.interfaces.map (fun i => i.toRow p.id)
      ∧ db'.device = p.topology.devices.map DeviceDescriptor.toRow
      ∧ db'.executor = p.executors.map (fun e => e.toRow p.id) := by
  have hIfold : p.network.interfaces.foldl (fun t i =>
      upsertBy (fun r => (r.peer_id, r.interface_id)) (i.toRow p.id) t)
      ([] : List PersistableNetworkInterface)
      = p.network.interfaces.map (fun i => i.toRow p.id) := by
    refine foldl_upsertBy_map_nil _ _ _ ?_
    have hinj : Function.Injective (fun n => ((p.id, n) : Nat × Nat)) := by
      intro a b h
      simpa using h
    have := List.Nodup.map hinj hnI
    simpa [List.map_map, Function.comp] using this
  have hDfold : p.topology.devices.foldl (fun t d =>
      upsertBy (fun r => r.device_id) d.toRow t) ([] : List PersistableDevice)
      = p.topology.devices.map DeviceDescriptor.toRow := by
    refine foldl_upsertBy_map_nil _ _ _ ?_
    exact hnD
  have hEfold : p.executors.foldl (fun t e =>
      upsertBy (fun r => (r.peer_id, r.executor_id)) (e.toRow p.id) t)
      ([] : List PersistableExecutor)
      = p.executors.map (fun e => e.toRow p.id) := by
    refine foldl_upsertBy_map_nil _ _ _ ?_
    have hinj : Function.Injective (fun n => ((p.id, n) : Nat × Nat)) := by
      intro a b h
      simpa using h
    have := List.Nodup.map hinj hnE
    simpa [List.map_map, Function.comp] using this
  have hfk : ∀ d ∈ p.topology.devices,
      (p.network.interfaces.map (fun i => i.toRow p.id)).any
        (fun r => r.interface_id == d.interface) = true := by
    intro d hd
    obtain ⟨i, hi, hid⟩ := List.mem_map.mp (hdev d hd)
    rw [List.any_eq_true]
    refine ⟨i.toRow p.id, List.mem_map_of_mem _ hi, ?_⟩
    simp [NetworkInterfaceDescriptor.toRow, hid]
  have e2 : p.network.interfaces.foldl (fun d i => networkInterfaceInsertDb i p.id d)
      (insertPersistable p.toPersistable Db.empty)
      = Db.mk [p.toPersistable] (p.network.interfaces.map (fun i => i.toRow p.id))
          [] [] [] [] [] [] [] := by
    rw [interfaces_foldl_eq]
    show Db.mk [p.toPersistable]
        (p.network.interfaces.foldl (fun t i =>
          upsertBy (fun r => (r.peer_id, r.interface_id)) (i.toRow p.id) t) [])
        [] [] [] [] [] [] [] = _
    rw [hIfold]
  have e3 := devices_foldInsertM_ok p.topology.devices
    (Db.mk [p.toPersistable] (p.network.interfaces.map (fun i => i.toRow p.id))
      [] [] [] [] [] [] []) hfk
  have e1 : peerDescriptorInsertDb p Db.empty
      = match foldInsertM deviceInsertDb p.topology.devices
          (p.network.interfaces.foldl (fun d i => networkInterfaceInsertDb i p.id d)
            (insertPersistable p.toPersistable Db.empty)) with
        | .error e => .error e
        | .ok db3 => .ok (p.executors.foldl (fun d e => executorInsertDb e p.id d) db3) := rfl
  rw [e2, e3] at e1
  simp only at e1
  rw [executors_foldl_eq] at e1
  refine ⟨_, e1, rfl, rfl, ?_, ?_⟩
  · show p.topology.devices.foldl (fun t d =>
      upsertBy (fun r => r.device_id) d.toRow t) ([] : List PersistableDevice)
        = p.topology.devices.map DeviceDescriptor.toRow
    exact hDfold
  · show p.executors.foldl (fun t e =>
      upsertBy (fun r => (r.peer_id, r.executor_id)) (e.toRow p.id) t)
      ([] : List PersistableExecutor)
        = p.executors.map (fun e => e.toRow p.id)
    exact hEfold

theorem composeRow_roundtrip (p : PeerDescriptor) (db' : Db)
    (hname : p.name ≠ "")
    (hloc : p.location.all (fun s => !(s == "")) = true)
    (hbr : p.network.bridgeName.all (fun s => !(s == "")) = true)
    (hdev : ∀ d ∈ p.topology.devices, d.interface ∈ p.network.interfaces.map (fun i => i.id))
    (hni : db'.network_interface = p.network.interfaces.map (fun i => i.toRow p.id))
    (hdv : db'.device = p.topology.devices.map DeviceDescriptor.toRow)
    (hex : db'.executor = p.executors.map (fun e => e.toRow p.id)) :
    composeRow db' p.toPersistable = .ok p := by
  have hfilterI : (db'.network_interface.filter (fun r => r.peer_id == p.id))
      = p.network.interfaces.map (fun i => i.toRow p.id) := by
    rw [hni]
    refine List.filter_eq_self.mpr ?_
    intro r hr
    obtain ⟨i, _, hi⟩ := List.mem_map.mp hr
    rw [← hi]
    simp [NetworkInterfaceDescriptor.toRow]
  have hifaces : listInterfacesByPeer p.id db' = p.network.interfaces := by
    unfold listInterfacesByPeer
    rw [hfilterI, List.map_map]
    exact List.map_id' p.network.interfaces
  have hdevs : listDevicesByPeer p.id db' = p.topology.devices := by
    have hzeta : listDevicesByPeer p.id db'
        = (db'.device.filter (fun r =>
            (((db'.network_interface.filter (fun r => r.peer_id == p.id)).map
              (fun r => r.interface_id)).contains r.interface_id))).map
          (fun r => { id := r.device_id, name := r.name, interface := r.interface_id }) := rfl
    rw [hzeta, hfilterI, hdv]
    have hids : (p.network.interfaces.map (fun i => i.toRow p.id)).map
        (fun r => r.interface_id) = p.network.interfaces.map (fun i => i.id) := by
      rw [List.map_map]
      rfl
    rw [hids]
    have hfilterD : (p.topology.devices.map DeviceDescriptor.toRow).filter
        (fun r => (p.network.interfaces.map (fun i => i.id)).contains r.interface_id)
        = p.topology.devices.map DeviceDescriptor.toRow := by
      refine List.filter_eq_self.mpr ?_
      intro r hr
      obtain ⟨d, hd, hdr⟩ := List.mem_map.mp hr
      rw [← hdr]
      exact contains_of_mem (hdev d hd)
    rw [hfilterD, List.map_map]
    exact List.map_id' p.topology.devices
  have hexecs : listExecutorsByPeer p.id db' = p.executors := by
    unfold listExecutorsByPeer
    have hfilterE : (db'.executor.filter (fun r => r.peer_id == p.id))
        = p.executors.map (fun e => e.toRow p.id) := by
      rw [hex]
      refine List.filter_eq_self.mpr ?_
      intro r hr
      obtain ⟨e, _, he⟩ := List.mem_map.mp hr
      rw [← he]
      simp [ExecutorDescriptor.toRow]
    rw [hfilterE, List.map_map]
    exact List.map_id' p.executors
  have hnm : peerNameTryFrom p.toPersistable.name = .ok p.name := by
    show peerNameTryFrom p.name = .ok p.name
    simp [peerNameTryFrom, hname]
  have hlc : transposeOpt peerLocationTryFrom p.toPersistable.location = .ok p.location := by
    show transposeOpt peerLocationTryFrom p.location = .ok p.location
    cases hl : p.location with
    | none => rfl
    | some s =>
      rw [hl] at hloc
      have hs : ¬ s = "" := by simpa using hloc
      simp [transposeOpt, peerLocationTryFrom, hs, Except.map]
  have hbg : transposeOpt networkInterfaceNameTryFrom p.toPersistable.network_bridge_name
      = .ok p.network.bridgeName := by
    show transposeOpt networkInterfaceNameTryFrom p.network.bridgeName
      = .ok p.network.bridgeName
    cases hb : p.network.bridgeName with
    | none => rfl
    | some s =>
      rw [hb] at hbr
      have hs : ¬ s = "" := by simpa using hbr
      simp [transposeOpt, networkInterfaceNameTryFrom, hs, Except.map]
  unfold composeRow
  rw [hnm, hlc, hbg]
  simp only
  rw [show p.toPersistable.peer_id = p.id from rfl, hifaces, hdevs, hexecs]

theorem peer_list_roundtrip (p : PeerDescriptor) (hwf : p.wellFormed) :
    ∃ db', peerDescriptorInsertDb p Db.empty = .ok db'
      ∧ peerDescriptorListDb (.byId p.id) db' = .ok [p] := by
  obtain ⟨hname, hloc, hbr, hnI, hnD, hnE, hdev⟩ := hwf
  obtain ⟨db', hins, hpd, hni, hdv, hex⟩ := peer_insert_empty p hnI hnD hnE hdev
  refine ⟨db', hins, ?_⟩
  have hcomp := composeRow_roundtrip p db' hname hloc hbr hdev hni hdv hex
  have hrows : db'.peer_descriptor.filter (fun r => r.peer_id == p.id)
      = [p.toPersistable] := by
    rw [hpd]
    simp [PeerDescriptor.toPersistable]
  unfold peerDescriptorListDb
  simp only [hrows]
  simp [collectResults, hcomp]

theorem peer_get_after_delete (peerId : Nat) (db : Db) :
    peerDescriptorGetDb peerId (deletePeerDescriptorCascade peerId db) = .ok none := by
  have hrows : (deletePeerDescriptorCascade peerId db).peer_descriptor.filter
      (fun r => r.peer_id == peerId) = [] := by
    have hpd : (deletePeerDescriptorCascade peerId db).peer_descriptor
        = db.peer_descriptor.filter (fun r => r.peer_id != peerId) := rfl
    rw [hpd]
    refine List.filter_eq_nil_iff.mpr ?_
    intro r hr
    have hne := (List.mem_filter.mp hr).2
    simp only [bne_iff_ne, ne_eq] at hne
    simp [hne]
  unfold peerDescriptorGetDb peerDescriptorListDb
  simp only [hrows]
  simp [collectResults, Except.map]

/-! ## Helper lemmas: manager runs on the volatile backend -/

theorem manager_insert_volatile (k : Kind) (id : Nat) (v : Val k)
    (s : VolatileStore) (subs : Subscribers) :
    ResourcesManager.insert k id v ⟨.volatile s, subs⟩
      = (.ok (), ⟨.volatile (Function.update s k (upsert id v (s k))),
          sendRelayedSubscriptionEvents
            (RelayBuffer.empty.notify k (.inserted id v)) subs⟩) := rfl

theorem manager_remove_volatile (k : Kind) (id : Nat)
    (s : VolatileStore) (subs : Subscribers) :
    ResourcesManager.remove k id ⟨.volatile s, subs⟩
      = (.ok (lookupId id (s k)),
         ⟨.volatile (Function.update s k (removeId id (s k))), subs⟩) := by
  have h : ResourcesManager.remove k id ⟨.volatile s, subs⟩
      = (.ok (lookupId id (s k)),
         ⟨.volatile (Function.update s k (removeId id (s k))),
          sendRelayedSubscriptionEvents RelayBuffer.empty subs⟩) := rfl
  rw [h, sendRelayed_empty]

theorem runOps_volatile (ops : List TxOp) (s : VolatileStore) (b : RelayBuffer) :
    (runOps ops ⟨.volatile s, b⟩).1 = .ok ()
    ∧ ∃ b', (runOps ops ⟨.volatile s, b⟩).2
        = ⟨.volatile (applyOpsStore ops s), b'⟩ := by
  induction ops generalizing s b with
  | nil => exact ⟨rfl, b, rfl⟩
  | cons op rest ih =>
    cases op with
    | insertOp k id v =>
      have hstep : runOps (TxOp.insertOp k id v :: rest) ⟨.volatile s, b⟩
          = runOps rest ⟨.volatile (Function.update s k (upsert id v (s k))),
              b.notify k (.inserted id v)⟩ := rfl
      rw [hstep]
      exact ih (Function.update s k (upsert id v (s k))) (b.notify k (.inserted id v))
    | removeOp k id =>
      have hstep : runOps (TxOp.removeOp k id :: rest) ⟨.volatile s, b⟩
          = runOps rest ⟨.volatile (Function.update s k (removeId id (s k))), b⟩ := rfl
      rw [hstep]
      exact ih (Function.update s k (removeId id (s k))) b

/-! ## The claims -/

/-- C1: for every user closure `f` passed to `resources_mut`, if `f` returns
`Err(e)` the backend transaction is rolled back and the relay buffer is
discarded, so the whole manager state — storage observable via `get`/`list`
and the subscribers, none of whom receives any event queued by `f` — is
exactly the state before the call, and the call returns `Ok(Err(e))` with the
user's error unchanged on the inner result. -/
theorem c1_mutate_rollback {T E : Type} (res : Resources) (subs : Subscribers)
    (f : ResourcesTransaction → Except E T × ResourcesTransaction) (e : E)
    (hf : (f { backend := res, events := RelayBuffer.empty }).1 = .error e) :
    ResourcesManager.resourcesMut f { resources := res, subscribers := subs }
      = (.ok (.error e), { resources := res, subscribers := subs }) := by
  rcases hfp : f { backend := res, events := RelayBuffer.empty } with ⟨r, tx'⟩
  rw [hfp] at hf
  simp only at hf
  subst hf
  unfold ResourcesManager.resourcesMut Resources.transaction
  rw [hfp]
  simp [sendRelayed_empty]

theorem c1_mutate_rollback_witness :
    ((fun tx => ((.error "user failure" : Except String Unit),
        (ResourcesTransaction.insert Kind.peerState 7 42 tx).2))
      { backend := Resources.volatile VolatileStore.empty,
        events := RelayBuffer.empty }).1 = .error "user failure"
    ∧ ResourcesManager.resourcesMut
        (fun tx => ((.error "user failure" : Except String Unit),
          (ResourcesTransaction.insert Kind.peerState 7 42 tx).2))
        { resources := Resources.volatile VolatileStore.empty,
          subscribers := Subscribers.subscribe (fun _ => []) Kind.peerState }
      = (.ok (.error "user failure"),
         { resources := Resources.volatile VolatileStore.empty,
           subscribers := Subscribers.subscribe (fun _ => []) Kind.peerState }) :=
  ⟨rfl, c1_mutate_rollback _ _ _ _ rfl⟩

/-- C2, amended: a committed `remove` returns the prior value and removes the
mapping, but queues no subscription event at all — the transaction handle
relays only insertions (`transaction.rs` notifies in `insert` only, and its
`remove` does not even require `R: Subscribable`), so a subscriber of the
removed kind receives zero events, not one `Removed` event. -/
theorem c2_remove_queues_no_event :
    (∀ (tx : ResourcesTransaction) (k : Kind) (id : Nat),
      ((ResourcesTransaction.remove k id tx).2).events = tx.events)
    ∧ (∀ (s : VolatileStore) (subs : Subscribers) (k : Kind) (id : Nat),
      ResourcesManager.remove k id ⟨.volatile s, subs⟩
        = (.ok (lookupId id (s k)),
           ⟨.volatile (Function.update s k (removeId id (s k))), subs⟩)) := by
  constructor
  · intro tx k id
    unfold ResourcesTransaction.remove
    cases h : tx.backend.removeBackend k id with
    | error e => simp [h]
    | ok pair => simp [h]
  · intro s subs k id
    exact manager_remove_volatile k id s subs

/-- C2, counterexample: with `peerState` id 7 mapped to 42 and one live
subscriber of that kind, a committed `remove` succeeds (it returns the prior
value 42), yet the subscriber receives no event — not the one `Removed` event
the claim requires. -/
theorem c2_remove_counterexample :
    (ResourcesManager.remove Kind.peerState 7
      ⟨.volatile (Function.update VolatileStore.empty Kind.peerState [(7, 42)]),
       Subscribers.subscribe (fun _ => []) Kind.peerState⟩).1 = .ok (some 42)
    ∧ ((ResourcesManager.remove Kind.peerState 7
        ⟨.volatile (Function.update VolatileStore.empty Kind.peerState [(7, 42)]),
         Subscribers.subscribe (fun _ => []) Kind.peerState⟩).2.subscribers) Kind.peerState
      = [[]]
    ∧ ([[]] : List (List (SubscriptionEvent Kind.peerState)))
      ≠ [[SubscriptionEvent.removed 7 42]] := by
  refine ⟨by decide, by decide, by decide⟩

/-- C7: lookups are kind-scoped — for two distinct kinds an insert of the
first kind under an id leaves every lookup of the second kind unchanged; in
particular when the second kind held nothing under that id before, it still
holds nothing after. -/
theorem c7_kind_isolation (s : VolatileStore) (subs : Subscribers)
    (k1 k2 : Kind) (h : k1 ≠ k2) (id x : Nat) (v : Val k1) :
    ResourcesManager.get k2 x (ResourcesManager.insert k1 id v ⟨.volatile s, subs⟩).2
      = ResourcesManager.get k2 x ⟨.volatile s, subs⟩
    ∧ (ResourcesManager.get k2 x ⟨.volatile s, subs⟩ = .ok none →
        ResourcesManager.get k2 x (ResourcesManager.insert k1 id v ⟨.volatile s, subs⟩).2
          = .ok none) := by
  have hget : ResourcesManager.get k2 x (ResourcesManager.insert k1 id v ⟨.volatile s, subs⟩).2
      = .ok (lookupId x (Function.update s k1 (upsert id v (s k1)) k2)) := rfl
  have hsame : ResourcesManager.get k2 x (ResourcesManager.insert k1 id v ⟨.volatile s, subs⟩).2
      = ResourcesManager.get k2 x ⟨.volatile s, subs⟩ := by
    rw [hget, Function.update_noteq (Ne.symm h)]
    rfl
  exact ⟨hsame, fun hnone => hsame.trans hnone⟩

theorem c7_kind_isolation_witness :
    Kind.clusterConfiguration ≠ Kind.clusterDeployment
    ∧ (ResourcesManager.get Kind.clusterDeployment 5
        (ResourcesManager.insert Kind.clusterConfiguration 5
          ⟨5, "ClusterA", 1, []⟩ ⟨.volatile VolatileStore.empty, fun _ => []⟩).2
        = ResourcesManager.get Kind.clusterDeployment 5
            ⟨.volatile VolatileStore.empty, fun _ => []⟩
      ∧ (ResourcesManager.get Kind.clusterDeployment 5
          ⟨.volatile VolatileStore.empty, fun _ => []⟩ = .ok none →
         ResourcesManager.get Kind.clusterDeployment 5
          (ResourcesManager.insert Kind.clusterConfiguration 5
            ⟨5, "ClusterA", 1, []⟩ ⟨.volatile VolatileStore.empty, fun _ => []⟩).2
          = .ok none)) :=
  ⟨by decide,
   c7_kind_isolation VolatileStore.empty (fun _ => [])
     Kind.clusterConfiguration Kind.clusterDeployment (by decide) 5 5
     ⟨5, "ClusterA", 1, []⟩⟩

/-- C8: read-your-writes — a `get` or `list` through the transaction handle
observes every uncommitted mutation that preceded it in the same transaction
(the handle reads the backend transaction's own state): after any
program-order prefix of inserts and removes, `get` and `list` return exactly
the store with that prefix applied, and in particular a `get` right after an
insert of `(id, v)` yields `Some v` and right after a remove of `id` yields
`None`, all before any commit. -/
theorem c8_read_your_writes (s : VolatileStore) (b : RelayBuffer)
    (ops : List TxOp) (k : Kind) (id : Nat) (v : Val k) :
    ResourcesTransaction.get k id (runOps ops ⟨.volatile s, b⟩).2
      = .ok (lookupId id (applyOpsStore ops s k))
    ∧ ResourcesTransaction.list k (runOps ops ⟨.volatile s, b⟩).2
      = .ok ((applyOpsStore ops s k).map (fun entry => entry.2))
    ∧ ResourcesTransaction.get k id
        (runOps (ops ++ [TxOp.insertOp k id v]) ⟨.volatile s, b⟩).2 = .ok (some v)
    ∧ ResourcesTransaction.get k id
        (runOps (ops ++ [TxOp.removeOp k id]) ⟨.volatile s, b⟩).2 = .ok none := by
  obtain ⟨-, b1, h1⟩ := runOps_volatile ops s b
  obtain ⟨-, b2, h2⟩ := runOps_volatile (ops ++ [TxOp.insertOp k id v]) s b
  obtain ⟨-, b3, h3⟩ := runOps_volatile (ops ++ [TxOp.removeOp k id]) s b
  have happ1 : applyOpsStore (ops ++ [TxOp.insertOp k id v]) s
      = Function.update (applyOpsStore ops s) k (upsert id v (applyOpsStore ops s k)) := by
    simp [applyOpsStore, List.foldl_append, applyOpStore]
  have happ2 : applyOpsStore (ops ++ [TxOp.removeOp k id]) s
      = Function.update (applyOpsStore ops s) k (removeId id (applyOpsStore ops s k)) := by
    simp [applyOpsStore, List.foldl_append, applyOpStore]
  refine ⟨by rw [h1]; rfl, by rw [h1]; rfl, ?_, ?_⟩
  · rw [h2, happ1]
    have : ResourcesTransaction.get k id
        (⟨.volatile (Function.update (applyOpsStore ops s) k
          (upsert id v (applyOpsStore ops s k))), b2⟩ : ResourcesTransaction)
        = .ok (lookupId id (Function.update (applyOpsStore ops s) k
            (upsert id v (applyOpsStore ops s k)) k)) := rfl
    rw [this, Function.update_same, lookupId_upsert_self]
  · rw [h3, happ2]
    have : ResourcesTransaction.get k id
        (⟨.volatile (Function.update (applyOpsStore ops s) k
          (removeId id (applyOpsStore ops s k))), b3⟩ : ResourcesTransaction)
        = .ok (lookupId id (Function.update (applyOpsStore ops s) k
            (removeId id (applyOpsStore ops s k)) k)) := rfl
    rw [this, Function.update_same, lookupId_removeId_self]

/-- C4: a committed transaction inserting `a`, `b`, `c` of one kind in that
order delivers to every subscriber of that kind exactly the events
`Inserted a, Inserted b, Inserted c`, appended in that order — the relay
buffer is a FIFO queue and `send_relayed_subscription_events` drains it in
enqueue order. -/
theorem c4_order_preservation (s : VolatileStore) (subs : Subscribers) (k : Kind)
    (a b c : Nat) (va vb vc : Val k) :
    (ResourcesManager.resourcesMut
        (runOps [TxOp.insertOp k a va, TxOp.insertOp k b vb, TxOp.insertOp k c vc])
        ⟨.volatile s, subs⟩).1 = .ok (.ok ())
    ∧ ((ResourcesManager.resourcesMut
        (runOps [TxOp.insertOp k a va, TxOp.insertOp k b vb, TxOp.insertOp k c vc])
        ⟨.volatile s, subs⟩).2.subscribers) k
      = (subs k).map (fun received => received ++
          [SubscriptionEvent.inserted a va, SubscriptionEvent.inserted b vb,
           SubscriptionEvent.inserted c vc]) := by
  constructor
  · rfl
  · have hsub : (ResourcesManager.resourcesMut
        (runOps [TxOp.insertOp k a va, TxOp.insertOp k b vb, TxOp.insertOp k c vc])
        ⟨.volatile s, subs⟩).2.subscribers
      = sendRelayedSubscriptionEvents
          (((RelayBuffer.empty.notify k (.inserted a va)).notify k
            (.inserted b vb)).notify k (.inserted c vc)) subs := rfl
    rw [hsub, sendRelayed_apply]
    simp [RelayBuffer.notify, Function.update_same, RelayBuffer.empty]

/-- C5: upsert idempotence — inserting `(id, v)` twice leaves `get id` at
`Some v` and delivers exactly two `Inserted` events to every subscriber of
the kind (one per successful insert); an insert whose backend operation fails
queues no event at all (`transaction.rs` notifies only on `Ok`); at the
relational level `insert_persistable` is idempotent (upsert on the primary
key). -/
theorem c5_upsert_idempotence :
    (∀ (s : VolatileStore) (subs : Subscribers) (k : Kind) (id : Nat) (v : Val k),
      ResourcesManager.get k id
          (ResourcesManager.insert k id v
            (ResourcesManager.insert k id v ⟨.volatile s, subs⟩).2).2 = .ok (some v)
      ∧ ((ResourcesManager.insert k id v
            (ResourcesManager.insert k id v ⟨.volatile s, subs⟩).2).2.subscribers) k
        = (subs k).map (fun received => received ++
            [SubscriptionEvent.inserted id v, SubscriptionEvent.inserted id v]))
    ∧ (∀ (tx : ResourcesTransaction) (k : Kind) (id : Nat) (v : Val k)
        (e : PersistenceError),
      tx.backend.insertBackend k id v = .error e →
        ResourcesTransaction.insert k id v tx = (.error e, tx))
    ∧ (∀ (row : PersistablePeerDescriptor) (db : Db),
      insertPersistable row (insertPersistable row db) = insertPersistable row db) := by
  refine ⟨?_, ?_, ?_⟩
  · intro s subs k id v
    constructor
    · have hget : ResourcesManager.get k id
          (ResourcesManager.insert k id v
            (ResourcesManager.insert k id v ⟨.volatile s, subs⟩).2).2
        = .ok (lookupId id
            (Function.update (Function.update s k (upsert id v (s k))) k
              (upsert id v (Function.update s k (upsert id v (s k)) k)) k)) := rfl
      rw [hget, Function.update_same, lookupId_upsert_self]
    · have hsub : (ResourcesManager.insert k id v
          (ResourcesManager.insert k id v ⟨.volatile s, subs⟩).2).2.subscribers
        = sendRelayedSubscriptionEvents (RelayBuffer.empty.notify k (.inserted id v))
            (sendRelayedSubscriptionEvents (RelayBuffer.empty.notify k (.inserted id v))
              subs) := rfl
      rw [hsub, sendRelayed_apply, sendRelayed_apply]
      simp [RelayBuffer.notify, Function.update_same, RelayBuffer.empty, List.map_map,
        Function.comp_def]
  · intro tx k id v e he
    unfold ResourcesTransaction.insert
    rw [he]
  · intro row db
    unfold insertPersistable
    simp only [upsertBy_idem]

theorem c5_upsert_idempotence_witness :
    ((⟨.persistent Db.empty, RelayBuffer.empty⟩ :
        ResourcesTransaction).backend.insertBackend Kind.clusterDeployment 5 ⟨5⟩
      = .error (.insertE "ClusterDeployment" 5
          "foreign-key violation: no ClusterConfiguration with this id"))
    ∧ ResourcesTransaction.insert Kind.clusterDeployment 5 ⟨5⟩
        ⟨.persistent Db.empty, RelayBuffer.empty⟩
      = (.error (.insertE "ClusterDeployment" 5
          "foreign-key violation: no ClusterConfiguration with this id"),
         ⟨.persistent Db.empty, RelayBuffer.empty⟩) :=
  ⟨rfl, c5_upsert_idempotence.2.1 _ _ _ _ _ rfl⟩

/-- C10: the relayed events of a committed transaction are delivered grouped
by kind, the groups following the fixed order cluster configuration, cluster
deployment, old peer configuration, peer configuration, peer descriptor, peer
state; within one kind the queue order (the per-kind operation order) is
preserved, but the cross-kind interleaving of the transaction is not: a
transaction inserting a peer state first and a cluster configuration second
has its notify calls made in the opposite order. -/
theorem c10_delivery_grouped_by_kind :
    (∀ (events : RelayBuffer) (s : Subscribers) (k : Kind),
      sendRelayedSubscriptionEvents events s k
        = (s k).map (fun received => received ++ events k))
    ∧ notificationOrder
        ((runOps [TxOp.insertOp Kind.peerState 7 42,
            TxOp.insertOp Kind.clusterConfiguration 3 ⟨3, "ClusterX", 7, []⟩]
          ⟨.volatile VolatileStore.empty, RelayBuffer.empty⟩).2.events)
      = [⟨Kind.clusterConfiguration, SubscriptionEvent.inserted 3 ⟨3, "ClusterX", 7, []⟩⟩,
         ⟨Kind.peerState, SubscriptionEvent.inserted 7 42⟩] := by
  exact ⟨sendRelayed_apply, by decide⟩

/-- C9: when `persistence.enabled` is false, `PersistenceOptions::load`
returns `Disabled` whatever the remaining keys hold (none of the
`persistence.database.*` keys is read or validated), and
`ResourcesStorage::connect` on `Disabled` constructs the default volatile
in-memory backend; when `persistence.enabled` is true and the
`persistence.database.url` value fails URL parsing, `load` returns a `Parse`
error naming that field and carrying the offending value. -/
theorem c9_persistence_options :
    (∀ (parseUrl : String → Except String Url) (config : Config),
      config.getBool "persistence.enabled" = .ok false →
        PersistenceOptions.load parseUrl config = .ok .disabled)
    ∧ (∀ (parseUrl : String → Except String Url) (config : Config)
        (value cause : String),
      config.getBool "persistence.enabled" = .ok true →
      config.getString "persistence.database.url" = .ok value →
      parseUrl value = .error cause →
        PersistenceOptions.load parseUrl config
          = .error (.parse "persistence.database.url" value cause))
    ∧ (∀ connectDatabase : DatabaseConnectInfo → Except String Db,
        Resources.connect connectDatabase .disabled
          = .ok (.volatile VolatileStore.empty)) := by
  refine ⟨?_, ?_, ?_⟩
  · intro parseUrl config h
    simp [PersistenceOptions.load, h]
  · intro parseUrl config value cause hb hu hp
    simp [PersistenceOptions.load, hb, hu, hp]
  · intro connectDatabase
    rfl

theorem c9_persistence_options_witness :
    (Config.getBool [("persistence.enabled", ConfigValue.boolValue false)]
        "persistence.enabled" = .ok false)
    ∧ PersistenceOptions.load (fun _ => .error "no parser")
        [("persistence.enabled", ConfigValue.boolValue false)] = .ok .disabled
    ∧ PersistenceOptions.load (fun _ => .error "relative URL without a base")
        [("persistence.enabled", ConfigValue.boolValue true),
         ("persistence.database.url", ConfigValue.stringValue "not a url")]
      = .error (.parse "persistence.database.url" "not a url"
          "relative URL without a base")
    ∧ Resources.connect (fun _ => .error "unreachable") .disabled
      = .ok (.volatile VolatileStore.empty) :=
  ⟨rfl,
   c9_persistence_options.1 _ _ rfl,
   c9_persistence_options.2.1 _ _ _ _ rfl rfl rfl,
   c9_persistence_options.2.2 _⟩

theorem mem_foldl_upsertBy_map {α β γ : Type} [DecidableEq γ] (key : β → γ) (f : α → β)
    (l : List α) (t : List β) (r : β) (hr : r ∈ t)
    (hk : ∀ a ∈ l, key (f a) ≠ key r) :
    r ∈ l.foldl (fun acc a => upsertBy key (f a) acc) t := by
  induction l generalizing t with
  | nil => simpa using hr
  | cons a rest ih =>
    simp only [List.foldl_cons]
    refine ih (upsertBy key (f a) t) ?_ ?_
    · exact mem_upsertBy_of_key_ne key (f a) r t hr
        (fun hc => hk a (List.mem_cons_self a rest) hc.symm)
    · intro a' ha'
      exact hk a' (List.mem_cons_of_mem a ha')

/-- C6: insert/remove round-trip — after `insert(id, v)`, `remove(id)`
returns `Ok(Some v)` and a subsequent `get(id)` returns `Ok(None)` (shown at
the manager level); the relational remove obtains the prior value by first
listing by id, then deleting (shown as the defining equation of the mapper's
remove), and round-trips on the relational backend: inserting a re-parsable
peer descriptor into the empty database, removing it returns exactly the
inserted value and leaves nothing to get. -/
theorem c6_insert_remove_roundtrip :
    (∀ (s : VolatileStore) (subs : Subscribers) (k : Kind) (id : Nat) (v : Val k),
      (ResourcesManager.remove k id
          (ResourcesManager.insert k id v ⟨.volatile s, subs⟩).2).1 = .ok (some v)
      ∧ ResourcesManager.get k id
          (ResourcesManager.remove k id
            (ResourcesManager.insert k id v ⟨.volatile s, subs⟩).2).2 = .ok none)
    ∧ (∀ (peerId : Nat) (db : Db),
      peerDescriptorRemoveDb peerId db
        = match peerDescriptorListDb (.byId peerId) db with
          | .error e => .error e
          | .ok result => .ok (result.head?, deletePeerDescriptorCascade peerId db))
    ∧ (∀ p : PeerDescriptor, p.wellFormed →
      ∃ db' db2, peerDescriptorInsertDb p Db.empty = .ok db'
        ∧ peerDescriptorRemoveDb p.id db' = .ok (some p, db2)
        ∧ peerDescriptorGetDb p.id db2 = .ok none) := by
  refine ⟨?_, ?_, ?_⟩
  · intro s subs k id v
    rw [manager_insert_volatile]
    constructor
    · rw [manager_remove_volatile, Function.update_same, lookupId_upsert_self]
    · rw [manager_remove_volatile]
      have hget : ResourcesManager.get k id
          ⟨.volatile (Function.update (Function.update s k (upsert id v (s k))) k
            (removeId id (Function.update s k (upsert id v (s k)) k))),
           sendRelayedSubscriptionEvents
             (RelayBuffer.empty.notify k (.inserted id v)) subs⟩
          = .ok (lookupId id
              (Function.update (Function.update s k (upsert id v (s k))) k
                (removeId id (Function.update s k (upsert id v (s k)) k)) k)) := rfl
      rw [hget, Function.update_same, lookupId_removeId_self]
  · intro peerId db
    rfl
  · intro p hwf
    obtain ⟨db', hins, hlist⟩ := peer_list_roundtrip p hwf
    refine ⟨db', deletePeerDescriptorCascade p.id db', hins, ?_,
      peer_get_after_delete p.id db'⟩
    unfold peerDescriptorRemoveDb
    rw [hlist]
    rfl

theorem c6_insert_remove_roundtrip_witness :
    (PeerDescriptor.wellFormed
      ⟨1, "TestPeer", some "Ulm", ⟨[⟨10, "eth0", "Ethernet"⟩], some "br-opendut-1"⟩,
       ⟨[⟨20, "device1", 10⟩]⟩, [⟨30, "Container", none⟩]⟩)
    ∧ (∃ db' db2,
        peerDescriptorInsertDb
          ⟨1, "TestPeer", some "Ulm", ⟨[⟨10, "eth0", "Ethernet"⟩], some "br-opendut-1"⟩,
           ⟨[⟨20, "device1", 10⟩]⟩, [⟨30, "Container", none⟩]⟩ Db.empty = .ok db'
        ∧ peerDescriptorRemoveDb 1 db'
          = .ok (some ⟨1, "TestPeer", some "Ulm",
              ⟨[⟨10, "eth0", "Ethernet"⟩], some "br-opendut-1"⟩,
              ⟨[⟨20, "device1", 10⟩]⟩, [⟨30, "Container", none⟩]⟩, db2)
        ∧ peerDescriptorGetDb 1 db2 = .ok none) :=
  ⟨by decide,
   c6_insert_remove_roundtrip.2.2
     ⟨1, "TestPeer", some "Ulm", ⟨[⟨10, "eth0", "Ethernet"⟩], some "br-opendut-1"⟩,
      ⟨[⟨20, "device1", 10⟩]⟩, [⟨30, "Container", none⟩]⟩ (by decide)⟩

/-- C3, amended: after `insert(id, v1)` then `insert(id, v2)` with the same
id, the volatile backend stores exactly the whole second value, and on the
relational backend the peer-descriptor parent row is wholly replaced by v2's
(name, location, bridge — no partial merge of the row); the child tables,
however, are only upserted by child id and never pruned, so a network
interface of v1 whose id does not occur among v2's interfaces survives both
inserts as a row of the stored entity. -/
theorem c3_whole_value_replacement :
    (∀ (s : VolatileStore) (subs : Subscribers) (k : Kind) (id : Nat)
        (v1 v2 : Val k),
      ResourcesManager.get k id
          (ResourcesManager.insert k id v2
            (ResourcesManager.insert k id v1 ⟨.volatile s, subs⟩).2).2
        = .ok (some v2))
    ∧ (∀ (p1 p2 : PeerDescriptor) (db db1 db2 : Db), p1.id = p2.id →
      peerDescriptorInsertDb p1 db = .ok db1 →
      peerDescriptorInsertDb p2 db1 = .ok db2 →
        db2.peer_descriptor.find? (fun r => r.peer_id == p2.id)
          = some p2.toPersistable)
    ∧ (∀ (p1 p2 : PeerDescriptor) (i : NetworkInterfaceDescriptor) (db1 db2 : Db),
      p1.id = p2.id →
      (p1.network.interfaces.map (fun j => j.id)).Nodup →
      i ∈ p1.network.interfaces →
      (∀ j ∈ p2.network.interfaces, j.id ≠ i.id) →
      peerDescriptorInsertDb p1 Db.empty = .ok db1 →
      peerDescriptorInsertDb p2 db1 = .ok db2 →
        i.toRow p1.id ∈ db2.network_interface) := by
  refine ⟨?_, ?_, ?_⟩
  · intro s subs k id v1 v2
    have hget : ResourcesManager.get k id
        (ResourcesManager.insert k id v2
          (ResourcesManager.insert k id v1 ⟨.volatile s, subs⟩).2).2
      = .ok (lookupId id
          (Function.update (Function.update s k (upsert id v1 (s k))) k
            (upsert id v2 (Function.update s k (upsert id v1 (s k)) k)) k)) := rfl
    rw [hget, Function.update_same, lookupId_upsert_self]
  · intro p1 p2 db db1 db2 hid hins1 hins2
    rw [(peer_insert_tables p2 db1 db2 hins2).1]
    refine find?_upsertBy_key (fun r => r.peer_id) p2.toPersistable _ _ ?_ ?_
    · simp [PeerDescriptor.toPersistable]
    · intro y hy
      have : ¬ y.peer_id = p2.id := by
        simpa [PeerDescriptor.toPersistable] using hy
      simp [this]
  · intro p1 p2 i db1 db2 hid hnodup hmem hfresh hins1 hins2
    have htab1 : db1.network_interface
        = p1.network.interfaces.map (fun j => j.toRow p1.id) := by
      have h := (peer_insert_tables p1 Db.empty db1 hins1).2
      rw [h]
      show p1.network.interfaces.foldl (fun t j =>
        upsertBy (fun r => (r.peer_id, r.interface_id)) (j.toRow p1.id) t) [] = _
      refine foldl_upsertBy_map_nil _ _ _ ?_
      have hinj : Function.Injective (fun n => ((p1.id, n) : Nat × Nat)) := by
        intro a b hab
        simpa using hab
      have := List.Nodup.map hinj hnodup
      simpa [List.map_map, Function.comp] using this
    have hrow1 : i.toRow p1.id ∈ db1.network_interface := by
      rw [htab1]
      exact List.mem_map_of_mem _ hmem
    rw [(peer_insert_tables p2 db1 db2 hins2).2]
    refine mem_foldl_upsertBy_map (fun r => (r.peer_id, r.interface_id))
      (fun j => j.toRow p2.id) p2.network.interfaces db1.network_interface
      (i.toRow p1.id) hrow1 ?_
    intro j hj
    show ((p2.id, j.id) : Nat × Nat) ≠ (p1.id, i.id)
    rw [hid]
    simp [hfresh j hj]

/-- C3, counterexample: insert peer 1 with one interface `eth0`, then insert
peer 1 again with an empty interface list; the stored entity read back is not
the second value — the interface row of the first value survives, so the
composed child collection still holds `eth0`. -/
theorem c3_counterexample :
    (peerDescriptorInsertDb ⟨1, "PeerA", none, ⟨[⟨10, "eth0", "Ethernet"⟩], none⟩,
        ⟨[]⟩, []⟩ Db.empty).bind
      (fun db1 => (peerDescriptorInsertDb ⟨1, "PeerB", none, ⟨[], none⟩,
          ⟨[]⟩, []⟩ db1).bind
        (fun db2 => peerDescriptorGetDb 1 db2))
      = .ok (some ⟨1, "PeerB", none, ⟨[⟨10, "eth0", "Ethernet"⟩], none⟩, ⟨[]⟩, []⟩)
    ∧ (peerDescriptorInsertDb ⟨1, "PeerA", none, ⟨[⟨10, "eth0", "Ethernet"⟩], none⟩,
        ⟨[]⟩, []⟩ Db.empty).bind
      (fun db1 => (peerDescriptorInsertDb ⟨1, "PeerB", none, ⟨[], none⟩,
          ⟨[]⟩, []⟩ db1).bind
        (fun db2 => peerDescriptorGetDb 1 db2))
      ≠ .ok (some ⟨1, "PeerB", none, ⟨[], none⟩, ⟨[]⟩, []⟩) := by
  refine ⟨by decide, by decide⟩

theorem c3_whole_value_replacement_witness :
    peerDescriptorInsertDb ⟨1, "PeerA", none, ⟨[⟨10, "eth0", "Ethernet"⟩], none⟩,
        ⟨[]⟩, []⟩ Db.empty
      = .ok ⟨[⟨1, "PeerA", none, none⟩], [⟨1, 10, "eth0", "Ethernet"⟩],
          [], [], [], [], [], [], []⟩
    ∧ peerDescriptorInsertDb ⟨1, "PeerB", none, ⟨[], none⟩, ⟨[]⟩, []⟩
        ⟨[⟨1, "PeerA", none, none⟩], [⟨1, 10, "eth0", "Ethernet"⟩],
          [], [], [], [], [], [], []⟩
      = .ok ⟨[⟨1, "PeerB", none, none⟩], [⟨1, 10, "eth0", "Ethernet"⟩],
          [], [], [], [], [], [], []⟩
    ∧ (Db.mk [⟨1, "PeerB", none, none⟩] [⟨1, 10, "eth0", "Ethernet"⟩]
          [] [] [] [] [] [] []).peer_descriptor.find? (fun r => r.peer_id == 1)
      = some ⟨1, "PeerB", none, none⟩
    ∧ NetworkInterfaceDescriptor.toRow 1 ⟨10, "eth0", "Ethernet"⟩
      ∈ (Db.mk [⟨1, "PeerB", none, none⟩] [⟨1, 10, "eth0", "Ethernet"⟩]
          [] [] [] [] [] [] []).network_interface :=
  ⟨by decide, by decide,
   c3_whole_value_replacement.2.1
     ⟨1, "PeerA", none, ⟨[⟨10, "eth0", "Ethernet"⟩], none⟩, ⟨[]⟩, []⟩
     ⟨1, "PeerB", none, ⟨[], none⟩, ⟨[]⟩, []⟩
     Db.empty
     ⟨[⟨1, "PeerA", none, none⟩], [⟨1, 10, "eth0", "Ethernet"⟩], [], [], [], [], [], [], []⟩
     ⟨[⟨1, "PeerB", none, none⟩], [⟨1, 10, "eth0", "Ethernet"⟩], [], [], [], [], [], [], []⟩
     rfl (by decide) (by decide),
   c3_whole_value_replacement.2.2
     ⟨1, "PeerA", none, ⟨[⟨10, "eth0", "Ethernet"⟩], none⟩, ⟨[]⟩, []⟩
     ⟨1, "PeerB", none, ⟨[], none⟩, ⟨[]⟩, []⟩
     ⟨10, "eth0", "Ethernet"⟩
     ⟨[⟨1, "PeerA", none, none⟩], [⟨1, 10, "eth0", "Ethernet"⟩], [], [], [], [], [], [], []⟩
     ⟨[⟨1, "PeerB", none, none⟩], [⟨1, 10, "eth0", "Ethernet"⟩], [], [], [], [], [], [], []⟩
     rfl (by decide) (by decide) (by decide) (by decide) (by decide)⟩

end OpenDut
